import Mathlib

/-!
Shallow embedding of the Doppler audio synthesis core of
`dtrradarsim.py` (NIST DTR Radar Target Simulator).

Modelling conventions:
* Python floats are modelled as exact rationals `ℚ` for all the data that
  the program parses, converts and compares (speeds, durations, amplitudes,
  carrier and beat frequencies); the cosine samples live in `ℝ`.
* The text of a GUI `Entry` widget is abstracted by `Txt`: Python's
  `float(text)` either returns a number (`Txt.num q`) or raises
  `ValueError` (`Txt.empty` for the empty string, `Txt.bad` for any other
  non-numeric text); `parse` is that partial conversion.
* The error strings returned by `MainWindow.create_sine` and
  `MainWindow.run` (`DIR ERROR`, `CONVERT ERROR`, `TRANSMIT FREQ ERROR`,
  `DATA ERROR`) are the constructors of `Err`; `run`'s
  `type(channels) == str` test is the `Except Err _` discrimination.
* A stereo buffer (the transposed `numpy` array of shape N x 2) is a
  `List (ℝ × ℝ)` of (left, right) rows.
* IEEE division by zero does not produce a real number (numpy emits
  `inf`/`nan`); elementwise division is therefore modelled by `pyDiv`,
  which returns `none` exactly when the divisor is zero.
* Python 2 `round` (the program targets Python 2: `print` statements,
  OcempGUI) rounds half away from zero; `pyRound` implements it.
-/

/-- Transmit band chosen with the radio buttons of `MainWindow`. -/
inductive Band
  | K
  | Ka
  | X
deriving DecidableEq

/-- Carrier (transmit) frequency in Hz of each band, from
`MainWindow.calc_frequency`: 24.150e9, 34.7e9, 10.525e9. -/
def carrier : Band → ℚ
  | Band.K => 24150000000
  | Band.Ka => 34700000000
  | Band.X => 10525000000

/-- `MainWindow.calc_frequency`: the two-way Doppler beat frequency
`(2 * trans_freq * velocity) / c` with `c = 299792458`; `none` models the
`return None` branch taken when no band radio button is active. -/
def calc_frequency (band : Option Band) (velocity : ℚ) : Option ℚ :=
  match band with
  | none => none
  | some b => some (2 * carrier b * velocity / 299792458)

/-- Abstraction of the text of an `Entry` widget, as seen by `float(..)`:
the empty string, a numeric literal with value `q`, or any other
(non-numeric) text. -/
inductive Txt
  | empty
  | num (q : ℚ)
  | bad
deriving DecidableEq

/-- Python's `float(text)` inside the `try` of `create_sine`: `some q` when
the conversion succeeds, `none` when it raises `ValueError`. -/
def parse : Txt → Option ℚ
  | Txt.empty => none
  | Txt.num q => some q
  | Txt.bad => none

/-- The error strings of `create_sine` / `run`:
`DIR ERROR`, `CONVERT ERROR`, `TRANSMIT FREQ ERROR`, `DATA ERROR`. -/
inductive Err
  | dirError
  | convertError
  | transmitError
  | dataError
deriving DecidableEq

/-- Python 2 `round`: nearest integer, halves away from zero. -/
def pyRound (q : ℚ) : ℤ :=
  if q < 0 then -Int.floor (-q + 1 / 2) else Int.floor (q + 1 / 2)

/-- Unit conversion inlined in `create_sine`:
`speed_units * (1000.0 / 60**2)` when the metric check button is active,
`speed_units * (1609.34 / 60**2)` otherwise. -/
def to_meters_per_second (metric : Bool) (speed_units : ℚ) : ℚ :=
  if metric then speed_units * (1000 / 3600)
  else speed_units * (160934 / 100 / 3600)

/-- Phase angle resolved from the direction in `create_sine`:
`numpy.pi/2` for approaching (`True`), `-1 * numpy.pi/2` for receding
(`False`). -/
noncomputable def phase (d : Bool) : ℝ :=
  if d then Real.pi / 2 else -1 * (Real.pi / 2)

/-- `MainWindow.create_sine`.  Control flow follows the source: the
direction test comes first (`None` direction returns `DIR ERROR`), then
the `float(..)` conversions of speed, duration and amplitude inside one
`try` (`CONVERT ERROR`), then the unit conversion and `calc_frequency`
(`TRANSMIT FREQ ERROR` when it returns `None`).  The sample index list
`numpy.arange(1, int(round(duration * 44100) + 1))` is the 1-based range
`k + 1` for `k < (pyRound (duration * 44100)).toNat`; the two channels are
built first and then every sample is multiplied by the amplitude, exactly
as `channels = channels * amplitude` does after the transpose. -/
noncomputable def create_sine (metric : Bool) (band : Option Band) (speed : Txt)
    (direction : Option Bool) (duration : Txt) (amplitude : Txt) :
    Except Err (List (ℝ × ℝ)) :=
  match direction with
  | none => Except.error Err.dirError
  | some d =>
    match parse speed, parse duration, parse amplitude with
    | some s, some du, some am =>
      match calc_frequency band (to_meters_per_second metric s) with
      | none => Except.error Err.transmitError
      | some f =>
        Except.ok
          (((List.range ((pyRound (du * 44100)).toNat)).map (fun (k : ℕ) =>
            (Real.cos (2 * Real.pi * (f : ℝ) * ((k : ℝ) + 1) / 44100),
             1.9 * Real.cos (2 * Real.pi * (f : ℝ) * ((k : ℝ) + 1) / 44100 - phase d)))).map
            (fun p => (p.1 * (am : ℝ), p.2 * (am : ℝ))))
    | _, _, _ => Except.error Err.convertError

/-- Elementwise float division `x / y` as numpy performs it in
`channels = channels / maximum`: a real quotient when `y` is nonzero,
`none` (IEEE `nan`/`inf`, not a real number) when `y = 0`. -/
def pyDiv {α : Type} [Field α] [DecidableEq α] (x y : α) : Option α :=
  if y = 0 then none else some (x / y)

/-- `numpy.amax(numpy.abs(channels))` over an N x 2 buffer: the largest
absolute sample over both channels. -/
def peak2 {α : Type} [LinearOrderedField α] (b : List (α × α)) : α :=
  (b.map (fun p => max |p.1| |p.2|)).foldr max 0

/-- The normalization step of `MainWindow.run` (both the simple branch,
lines 460-462, and the advanced branch, lines 529-531):
`maximum = numpy.amax(numpy.abs(channels)); channels = channels / maximum`.
There is no guard on `maximum == 0`; the division is performed
unconditionally on every sample. -/
def normStep2 {α : Type} [LinearOrderedField α] [DecidableEq α]
    (b : List (α × α)) : List (Option α × Option α) :=
  b.map (fun p => (pyDiv p.1 (peak2 b), pyDiv p.2 (peak2 b)))

/-- The simple-window branch of `MainWindow.run`: one `create_sine` call
with the default amplitude `1`, then the unguarded normalization, then the
hand-off to `sounddevice.play` (the `Except.ok` payload). -/
noncomputable def runSimple (metric : Bool) (band : Option Band) (speed : Txt)
    (direction : Option Bool) (duration : Txt) :
    Except Err (List (Option ℝ × Option ℝ)) :=
  match create_sine metric band speed direction duration (Txt.num 1) with
  | Except.error e => Except.error e
  | Except.ok channels => Except.ok (normStep2 channels)

/-- One row of the advanced window's per-vehicle data as `run` reads it:
`speed_list[i]`, `direct_list[i]`, `amp_list[i]`.  The `Option` layer
models the `!= None` tests of the filter at line 487. -/
structure Vehicle where
  speed : Option Txt
  direct : Option Bool
  amp : Option Txt
deriving DecidableEq

/-- The completeness filter of `MainWindow.run` (line 487): keep a vehicle
exactly when `speed != None and speed != ""` and `direct != None` and
`amp != None and amp != ""`. -/
def keep (v : Vehicle) : Bool :=
  v.speed.isSome && !(v.speed == some Txt.empty) && v.direct.isSome &&
    v.amp.isSome && !(v.amp == some Txt.empty)

/-- The per-vehicle `create_sine` call of the advanced loop (line 496):
`create_sine(vehicle[0], vehicle[1], duration, vehicle[2])`.  For a kept
vehicle the `getD` defaults are never used, since the filter guarantees
the fields are present. -/
noncomputable def sineOf (metric : Bool) (band : Option Band) (duration : Txt)
    (v : Vehicle) : Except Err (List (ℝ × ℝ)) :=
  create_sine metric band (v.speed.getD Txt.empty) v.direct duration
    (v.amp.getD Txt.empty)

/-- The synthesis loop of the advanced branch (lines 495-508): vehicles are
synthesized in order and the first error breaks out of the loop, dropping
the buffers collected so far. -/
noncomputable def synthAll (metric : Bool) (band : Option Band) (duration : Txt) :
    List Vehicle → Except Err (List (List (ℝ × ℝ)))
  | [] => Except.ok []
  | v :: rest =>
    match sineOf metric band duration v with
    | Except.error e => Except.error e
    | Except.ok b =>
      match synthAll metric band duration rest with
      | Except.error e => Except.error e
      | Except.ok bs => Except.ok (b :: bs)

/-- Elementwise sum of two equal-length stereo buffers:
`main_channel += sine_wave_data[i]`. -/
noncomputable def addBuf (x y : List (ℝ × ℝ)) : List (ℝ × ℝ) :=
  List.zipWith (fun p q => (p.1 + q.1, p.2 + q.2)) x y

/-- The advanced-window branch of `MainWindow.run` (lines 471-534): filter
the vehicle rows, synthesize each kept one failing fast, report
`DATA ERROR` when nothing was kept, otherwise mix the buffers and apply
the unguarded normalization before the hand-off to playback. -/
noncomputable def runAdvanced (metric : Bool) (band : Option Band)
    (vehicles : List Vehicle) (duration : Txt) :
    Except Err (List (Option ℝ × Option ℝ)) :=
  match synthAll metric band duration (vehicles.filter keep) with
  | Except.error e => Except.error e
  | Except.ok [] => Except.error Err.dataError
  | Except.ok (b :: bs) => Except.ok (normStep2 (bs.foldl addBuf b))

/-- `AdvancedWindow.get_direction`: each per-vehicle check button maps to
`False` (receding) when checked and `True` (approaching) when unchecked;
the returned list never contains `None`. -/
def get_direction (checks : List Bool) : List Bool :=
  checks.map (fun active => !active)

/-- Assembly of the advanced window's widget data into vehicle rows, as
`run` reads `get_speed()`, `get_direction()`, `get_amplitude()`: the
entries always yield strings and the check buttons always yield booleans,
so every field is present (`some`). -/
def mkVehicles : List Txt → List Bool → List Txt → List Vehicle
  | s :: ss, d :: ds, a :: more => ⟨some s, some d, some a⟩ :: mkVehicles ss ds more
  | _, _, _ => []

/-- The full multi-vehicle path from the GUI widgets: directions come from
`get_direction`, so they are always specified. -/
noncomputable def runAdvancedGui (metric : Bool) (band : Option Band)
    (speeds : List Txt) (checks : List Bool) (amps : List Txt) (duration : Txt) :
    Except Err (List (Option ℝ × Option ℝ)) :=
  runAdvanced metric band (mkVehicles speeds (get_direction checks) amps) duration

/-! Lemmas about the peak and the unguarded normalization. -/

lemma peak2_cons {α : Type} [LinearOrderedField α] (x : α × α) (t : List (α × α)) :
    peak2 (x :: t) = max (max |x.1| |x.2|) (peak2 t) := rfl

lemma le_peak2 {α : Type} [LinearOrderedField α] {b : List (α × α)} {x : α × α}
    (hx : x ∈ b) : max |x.1| |x.2| ≤ peak2 b := by
  induction b with
  | nil => cases hx
  | cons y t ih =>
    rw [peak2_cons]
    rcases List.mem_cons.mp hx with h | h
    · exact h ▸ le_max_left _ _
    · exact le_trans (ih h) (le_max_right _ _)

lemma peak2_pos {α : Type} [LinearOrderedField α] {b : List (α × α)} {x : α × α}
    (hx : x ∈ b) (hnz : x.1 ≠ 0 ∨ x.2 ≠ 0) : 0 < peak2 b := by
  refine lt_of_lt_of_le ?_ (le_peak2 hx)
  rcases hnz with h | h
  · exact lt_max_of_lt_left (abs_pos.mpr h)
  · exact lt_max_of_lt_right (abs_pos.mpr h)

lemma peak2_map_div {α : Type} [LinearOrderedField α] {c : α} (hc : 0 < c)
    (b : List (α × α)) :
    peak2 (b.map (fun p => (p.1 / c, p.2 / c))) = peak2 b / c := by
  have hmax : ∀ u v : α, max u v / c = max (u / c) (v / c) := by
    intro u v
    rw [div_eq_mul_inv, div_eq_mul_inv, div_eq_mul_inv,
      max_mul_of_nonneg _ _ (inv_nonneg.mpr hc.le)]
  induction b with
  | nil => simp [peak2]
  | cons x t ih =>
    rw [List.map_cons, peak2_cons, peak2_cons, ih, hmax, hmax, abs_div, abs_div,
      abs_of_pos hc]

/-- C1, as stated, is false: the division by the peak in `MainWindow.run`
is not guarded, so an all-zero buffer is not returned unchanged — every
sample is divided by a zero peak (numpy `0.0 / 0.0`, i.e. `nan`, modelled
by `none`). -/
theorem c1_counterexample :
    normStep2 [((0 : ℚ), 0)] ≠ [(some (0 : ℚ), some (0 : ℚ))] := by decide

/-- C1 amended: on an all-zero buffer the peak is `0` and the unguarded
normalization step divides every sample by zero, so the result is the
all-`nan` buffer rather than the unchanged input. -/
theorem c1_amended (b : List (ℚ × ℚ)) (hz : ∀ p ∈ b, p.1 = 0 ∧ p.2 = 0) :
    peak2 b = 0 ∧ normStep2 b = b.map (fun _ => ((none : Option ℚ), (none : Option ℚ))) := by
  have hpk : peak2 b = 0 := by
    induction b with
    | nil => rfl
    | cons x t ih =>
      have hx := hz x (List.mem_cons_self x t)
      have ht := ih (fun p hp => hz p (List.mem_cons_of_mem x hp))
      rw [peak2_cons, ht, hx.1, hx.2, abs_zero, max_self, max_self]
  refine ⟨hpk, ?_⟩
  unfold normStep2
  rw [hpk]
  simp [pyDiv]

/-- Witness for the amended C1 at the concrete one-sample silent buffer. -/
theorem c1_amended_witness :
    (∀ p ∈ [((0 : ℚ), 0)], p.1 = 0 ∧ p.2 = 0) ∧
      (peak2 [((0 : ℚ), 0)] = 0 ∧
        normStep2 [((0 : ℚ), 0)] =
          [((0 : ℚ), 0)].map (fun _ => ((none : Option ℚ), (none : Option ℚ)))) :=
  ⟨by decide, c1_amended [((0 : ℚ), 0)] (by decide)⟩

/-- C3: for every selected band the beat frequency is
`2 * carrier * v / 299792458` with the carriers K = 24.150e9,
Ka = 34.7e9, X = 10.525e9; it vanishes at `v = 0` and is linear in `v`. -/
theorem c3_beat_frequency (b : Band) (v k : ℚ) :
    (carrier Band.K = 24150000000 ∧ carrier Band.Ka = 34700000000 ∧
      carrier Band.X = 10525000000) ∧
    calc_frequency (some b) v = some (2 * carrier b * v / 299792458) ∧
    calc_frequency (some b) 0 = some 0 ∧
    calc_frequency (some b) (k * v) = some (k * (2 * carrier b * v / 299792458)) := by
  refine ⟨⟨rfl, rfl, rfl⟩, rfl, ?_, ?_⟩
  · simp [calc_frequency]
  · simp only [calc_frequency, Option.some.injEq]
    ring

/-- C4: on a buffer with at least one nonzero sample the normalization
divides every sample of both channels by the single full-buffer peak, and
the peak of the resulting buffer is exactly `1`. -/
theorem c4_normalize (b : List (ℚ × ℚ)) (x : ℚ × ℚ) (hmem : x ∈ b)
    (hnz : x.1 ≠ 0 ∨ x.2 ≠ 0) :
    normStep2 b = b.map (fun q => (some (q.1 / peak2 b), some (q.2 / peak2 b))) ∧
    peak2 (b.map (fun q => (q.1 / peak2 b, q.2 / peak2 b))) = 1 := by
  have hpos : 0 < peak2 b := peak2_pos hmem hnz
  constructor
  · simp [normStep2, pyDiv, hpos.ne']
  · rw [peak2_map_div hpos, div_self hpos.ne']

/-- Witness for C4 at the concrete buffer `[(0, 2)]`. -/
theorem c4_normalize_witness :
    ((0 : ℚ), 2) ∈ [((0 : ℚ), 2)] ∧ (((0 : ℚ), 2).1 ≠ 0 ∨ ((0 : ℚ), 2).2 ≠ 0) ∧
      (normStep2 [((0 : ℚ), 2)] =
        [((0 : ℚ), 2)].map
          (fun q => (some (q.1 / peak2 [((0 : ℚ), 2)]), some (q.2 / peak2 [((0 : ℚ), 2)]))) ∧
      peak2 ([((0 : ℚ), 2)].map
        (fun q => (q.1 / peak2 [((0 : ℚ), 2)], q.2 / peak2 [((0 : ℚ), 2)]))) = 1) :=
  ⟨by decide, by decide, c4_normalize [((0 : ℚ), 2)] ((0 : ℚ), 2) (by decide) (by decide)⟩

/-- C9: the unit conversion multiplies by `1000/3600` in metric mode and by
`1609.34/3600` otherwise; it is a total function, and a negative speed is
accepted and yields a negative velocity and hence a negative, mirrored
beat frequency instead of an error. -/
theorem c9_unit_conversion (m : Bool) (b : Band) (s : ℚ) (hs : s < 0) :
    (∀ t : ℚ, to_meters_per_second true t = t * (1000 / 3600) ∧
      to_meters_per_second false t = t * (160934 / 100 / 3600)) ∧
    to_meters_per_second m s < 0 ∧
    ∃ f : ℚ, calc_frequency (some b) (to_meters_per_second m s) = some f ∧ f < 0 ∧
      calc_frequency (some b) (to_meters_per_second m (-s)) = some (-f) := by
  have hfac : ∀ m' : Bool, to_meters_per_second m' s < 0 := by
    intro m'
    cases m' with
    | false => exact mul_neg_of_neg_of_pos hs (by norm_num)
    | true => exact mul_neg_of_neg_of_pos hs (by norm_num)
  have hcar : 0 < carrier b := by cases b <;> norm_num [carrier]
  refine ⟨fun t => ⟨rfl, rfl⟩, hfac m,
    ⟨2 * carrier b * to_meters_per_second m s / 299792458, rfl, ?_, ?_⟩⟩
  · exact div_neg_of_neg_of_pos
      (mul_neg_of_pos_of_neg (mul_pos two_pos hcar) (hfac m)) (by norm_num)
  · have hneg : to_meters_per_second m (-s) = -(to_meters_per_second m s) := by
      cases m <;> simp [to_meters_per_second]
    simp only [calc_frequency, hneg, Option.some.injEq]
    ring

/-- Witness for C9 at the concrete speed `-1`. -/
theorem c9_unit_conversion_witness :
    ((-1 : ℚ) < 0) ∧
      ((∀ t : ℚ, to_meters_per_second true t = t * (1000 / 3600) ∧
          to_meters_per_second false t = t * (160934 / 100 / 3600)) ∧
        to_meters_per_second true (-1) < 0 ∧
        ∃ f : ℚ,
          calc_frequency (some Band.K) (to_meters_per_second true (-1)) = some f ∧
          f < 0 ∧
          calc_frequency (some Band.K) (to_meters_per_second true (-(-1))) = some (-f)) :=
  ⟨by norm_num, c9_unit_conversion true Band.K (-1) (by norm_num)⟩

/-- C7: an unspecified direction yields `DIR ERROR` before any numeric
validation (even when speed, duration or amplitude is unparseable), and
with a specified direction the result is `CONVERT ERROR` exactly when one
of speed, duration or amplitude does not parse as a number. -/
theorem c7_error_order (m : Bool) (band : Option Band) (sp du am : Txt) :
    create_sine m band sp none du am = Except.error Err.dirError ∧
    ∀ d : Bool,
      (create_sine m band sp (some d) du am = Except.error Err.convertError ↔
        (parse sp = none ∨ parse du = none ∨ parse am = none)) := by
  refine ⟨rfl, ?_⟩
  intro d
  cases hs : parse sp with
  | none => simp [create_sine, hs]
  | some s =>
    cases hd : parse du with
    | none => simp [create_sine, hs, hd]
    | some dq =>
      cases ha : parse am with
      | none => simp [create_sine, hs, hd, ha]
      | some aq =>
        cases band with
        | none => simp [create_sine, hs, hd, ha, calc_frequency]
        | some b => simp [create_sine, hs, hd, ha, calc_frequency]

/-- Witness for C7 at concrete unparseable speed text. -/
theorem c7_error_order_witness :
    create_sine false (some Band.K) Txt.bad none (Txt.num 1) (Txt.num 1) =
      Except.error Err.dirError ∧
    (create_sine false (some Band.K) Txt.bad (some true) (Txt.num 1) (Txt.num 1) =
        Except.error Err.convertError ↔
      (parse Txt.bad = none ∨ parse (Txt.num 1) = none ∨ parse (Txt.num 1) = none)) :=
  ⟨(c7_error_order false (some Band.K) Txt.bad (Txt.num 1) (Txt.num 1)).1,
   (c7_error_order false (some Band.K) Txt.bad (Txt.num 1) (Txt.num 1)).2 true⟩

/-- Successful synthesis, unfolded: with a chosen band, a specified
direction and parseable numeric texts, `create_sine` reduces to the
two-channel cosine buffer scaled by the amplitude. -/
lemma create_sine_num (m : Bool) (b : Band) (d : Bool) (s dq aq : ℚ) :
    create_sine m (some b) (Txt.num s) (some d) (Txt.num dq) (Txt.num aq) =
      Except.ok
        (((List.range ((pyRound (dq * 44100)).toNat)).map (fun (k : ℕ) =>
          (Real.cos (2 * Real.pi *
              ((2 * carrier b * to_meters_per_second m s / 299792458 : ℚ) : ℝ) *
              ((k : ℝ) + 1) / 44100),
           1.9 * Real.cos (2 * Real.pi *
              ((2 * carrier b * to_meters_per_second m s / 299792458 : ℚ) : ℝ) *
              ((k : ℝ) + 1) / 44100 - phase d)))).map
          (fun p => (p.1 * (aq : ℝ), p.2 * (aq : ℝ)))) := rfl

/-- C2: synthesis returns the buffer whose row at 0-based position `k`
(the 1-based sample index is `i = k + 1`) has left channel
`amplitude * cos(2 pi f (k+1) / 44100)` and right channel
`amplitude * 1.9 * cos(2 pi f (k+1) / 44100 - phase_angle)`, where `f` is
the beat frequency of the chosen band and converted speed, and the phase
angle is `pi/2` for approaching and `-pi/2` for receding. -/
theorem c2_synthesis (m : Bool) (b : Band) (d : Bool) (s dq aq : ℚ) :
    phase true = Real.pi / 2 ∧ phase false = -(Real.pi / 2) ∧
    create_sine m (some b) (Txt.num s) (some d) (Txt.num dq) (Txt.num aq) =
      Except.ok
        ((List.range ((pyRound (dq * 44100)).toNat)).map (fun (k : ℕ) =>
          ((aq : ℝ) * Real.cos (2 * Real.pi *
              ((2 * carrier b * to_meters_per_second m s / 299792458 : ℚ) : ℝ) *
              ((k : ℝ) + 1) / 44100),
           (aq : ℝ) * 1.9 * Real.cos (2 * Real.pi *
              ((2 * carrier b * to_meters_per_second m s / 299792458 : ℚ) : ℝ) *
              ((k : ℝ) + 1) / 44100 - phase d)))) := by
  refine ⟨by simp [phase], by simp [phase], ?_⟩
  rw [create_sine_num, List.map_map]
  refine congrArg Except.ok (List.map_congr_left ?_)
  intro k _
  simp only [Function.comp_apply, Prod.mk.injEq]
  constructor <;> ring

/-- C5, as stated, is false: for the parseable duration `-1` the synthesis
succeeds with an empty buffer (0 samples), while
`round(duration * 44100) = -44100`. -/
theorem c5_counterexample_negative_duration :
    create_sine false (some Band.K) (Txt.num 60) (some true) (Txt.num (-1)) (Txt.num 1) =
      Except.ok ([] : List (ℝ × ℝ)) ∧
    ((([] : List (ℝ × ℝ)).length : ℤ) ≠ pyRound ((-1 : ℚ) * 44100)) := by
  have hr : pyRound ((-1 : ℚ) * 44100) = -44100 := by
    rw [pyRound, if_pos (by norm_num)]
    norm_num
  constructor
  · rw [create_sine_num]
    have h0 : (pyRound ((-1 : ℚ) * 44100)).toNat = 0 := by rw [hr]; rfl
    rw [h0]
    rfl
  · rw [hr]
    decide

/-- C5 amended: both channels of the synthesized buffer have identical
length (each row carries one sample of each channel), and that length is
`max (round (duration * 44100)) 0` — the `numpy.arange(1, round(..)+1)`
index list clamps negative values to an empty buffer; for nonnegative
durations this is exactly `round (duration * 44100)`. -/
theorem c5_amended_length (m : Bool) (b : Band) (d : Bool) (s dq aq : ℚ) :
    ∃ buf : List (ℝ × ℝ),
      create_sine m (some b) (Txt.num s) (some d) (Txt.num dq) (Txt.num aq) =
        Except.ok buf ∧
      (buf.length : ℤ) = max (pyRound (dq * 44100)) 0 := by
  refine ⟨_, create_sine_num m b d s dq aq, ?_⟩
  simp only [List.length_map, List.length_range]
  omega

/-! Lemmas about the advanced-mode synthesis loop. -/

lemma synthAll_cons (m : Bool) (band : Option Band) (dur : Txt) (v : Vehicle)
    (t : List Vehicle) :
    synthAll m band dur (v :: t) =
      match sineOf m band dur v with
      | Except.error e => Except.error e
      | Except.ok b =>
        match synthAll m band dur t with
        | Except.error e => Except.error e
        | Except.ok bs => Except.ok (b :: bs) := rfl

lemma create_sine_ne_dataError (m : Bool) (band : Option Band) (sp : Txt)
    (dir : Option Bool) (du am : Txt) :
    create_sine m band sp dir du am ≠ Except.error Err.dataError := by
  cases dir with
  | none => simp [create_sine]
  | some d =>
    cases hs : parse sp with
    | none => simp [create_sine, hs]
    | some s =>
      cases hd : parse du with
      | none => simp [create_sine, hs, hd]
      | some dq =>
        cases ha : parse am with
        | none => simp [create_sine, hs, hd, ha]
        | some aq =>
          cases band with
          | none => simp [create_sine, hs, hd, ha, calc_frequency]
          | some b => simp [create_sine, hs, hd, ha, calc_frequency]

lemma create_sine_some_ne_dirError (m : Bool) (band : Option Band) (sp : Txt)
    (d : Bool) (du am : Txt) :
    create_sine m band sp (some d) du am ≠ Except.error Err.dirError := by
  cases hs : parse sp with
  | none => simp [create_sine, hs]
  | some s =>
    cases hd : parse du with
    | none => simp [create_sine, hs, hd]
    | some dq =>
      cases ha : parse am with
      | none => simp [create_sine, hs, hd, ha]
      | some aq =>
        cases band with
        | none => simp [create_sine, hs, hd, ha, calc_frequency]
        | some b => simp [create_sine, hs, hd, ha, calc_frequency]

lemma synthAll_error_ne_dataError {m : Bool} {band : Option Band} {dur : Txt} :
    ∀ {l : List Vehicle} {e : Err},
      synthAll m band dur l = Except.error e → e ≠ Err.dataError := by
  intro l
  induction l with
  | nil => intro e h; simp [synthAll] at h
  | cons v t ih =>
    intro e h
    cases hv : sineOf m band dur v with
    | error e2 =>
      simp only [synthAll_cons, hv, Except.error.injEq] at h
      subst h
      intro hc
      subst hc
      exact create_sine_ne_dataError m band _ v.direct dur _ hv
    | ok bb =>
      cases hrest : synthAll m band dur t with
      | error e3 =>
        simp only [synthAll_cons, hv, hrest, Except.error.injEq] at h
        subst h
        exact ih hrest
      | ok bs => simp [synthAll_cons, hv, hrest] at h

lemma synthAll_length {m : Bool} {band : Option Band} {dur : Txt} :
    ∀ {l : List Vehicle} {bufs : List (List (ℝ × ℝ))},
      synthAll m band dur l = Except.ok bufs → bufs.length = l.length := by
  intro l
  induction l with
  | nil =>
    intro bufs h
    simp only [synthAll, Except.ok.injEq] at h
    subst h
    rfl
  | cons v t ih =>
    intro bufs h
    cases hv : sineOf m band dur v with
    | error e2 => simp [synthAll_cons, hv] at h
    | ok bb =>
      cases hrest : synthAll m band dur t with
      | error e3 => simp [synthAll_cons, hv, hrest] at h
      | ok bs =>
        simp only [synthAll_cons, hv, hrest, Except.ok.injEq] at h
        subst h
        simp [ih hrest]

lemma synthAll_first_error {m : Bool} {band : Option Band} {dur : Txt}
    {v : Vehicle} {e : Err} (post : List Vehicle) :
    ∀ {pre : List Vehicle},
      (∀ u ∈ pre, ∃ bb, sineOf m band dur u = Except.ok bb) →
      sineOf m band dur v = Except.error e →
      synthAll m band dur (pre ++ v :: post) = Except.error e := by
  intro pre
  induction pre with
  | nil =>
    intro _ hv
    simp [synthAll_cons, hv]
  | cons u t ih =>
    intro hpre hv
    obtain ⟨bb, hbb⟩ := hpre u (List.mem_cons_self u t)
    simp only [List.cons_append, synthAll_cons, hbb,
      ih (fun w hw => hpre w (List.mem_cons_of_mem u hw)) hv]

lemma keep_direct {v : Vehicle} (h : keep v = true) : ∃ bb, v.direct = some bb := by
  simp only [keep, Bool.and_eq_true] at h
  exact Option.isSome_iff_exists.mp h.1.1.2

lemma synthAll_keep_ne_dirError {m : Bool} {band : Option Band} {dur : Txt} :
    ∀ {l : List Vehicle} {e : Err}, (∀ v ∈ l, keep v = true) →
      synthAll m band dur l = Except.error e → e ≠ Err.dirError := by
  intro l
  induction l with
  | nil => intro e _ h; simp [synthAll] at h
  | cons v t ih =>
    intro e hall h
    cases hv : sineOf m band dur v with
    | error e2 =>
      simp only [synthAll_cons, hv, Except.error.injEq] at h
      subst h
      obtain ⟨bb, hbb⟩ := keep_direct (hall v (List.mem_cons_self v t))
      intro hc
      subst hc
      rw [sineOf, hbb] at hv
      exact create_sine_some_ne_dirError m band _ bb dur _ hv
    | ok bb =>
      cases hrest : synthAll m band dur t with
      | error e3 =>
        simp only [synthAll_cons, hv, hrest, Except.error.injEq] at h
        subst h
        exact ih (fun w hw => hall w (List.mem_cons_of_mem v hw)) hrest
      | ok bs => simp [synthAll_cons, hv, hrest] at h

/-- C6: in a multi-vehicle run, when every retained vehicle before `v`
synthesizes successfully and `v` fails with error `e`, the whole run
returns `Except.error e`: the conclusion holds for every suffix `post`
(the vehicles after `v` are never synthesized), the buffers already
collected for the prefix are discarded, and no buffer reaches the
playback hand-off (the `Except.ok` payload). -/
theorem c6_fail_fast (m : Bool) (band : Option Band) (dur : Txt)
    (vehicles pre post : List Vehicle) (v : Vehicle) (e : Err)
    (hsplit : vehicles.filter keep = pre ++ v :: post)
    (hpre : ∀ u ∈ pre, ∃ bb, sineOf m band dur u = Except.ok bb)
    (hv : sineOf m band dur v = Except.error e) :
    runAdvanced m band vehicles dur = Except.error e := by
  unfold runAdvanced
  rw [hsplit, synthAll_first_error post hpre hv]

/-- Witness for C6: a run with one good vehicle followed by one whose
amplitude text does not parse aborts with `CONVERT ERROR`. -/
theorem c6_fail_fast_witness :
    (([⟨some (Txt.num 60), some true, some (Txt.num 1)⟩,
       ⟨some (Txt.num 5), some true, some Txt.bad⟩] : List Vehicle).filter keep =
      [⟨some (Txt.num 60), some true, some (Txt.num 1)⟩] ++
        (⟨some (Txt.num 5), some true, some Txt.bad⟩ : Vehicle) :: []) ∧
    runAdvanced false (some Band.K)
      [⟨some (Txt.num 60), some true, some (Txt.num 1)⟩,
       ⟨some (Txt.num 5), some true, some Txt.bad⟩] (Txt.num 1) =
      Except.error Err.convertError :=
  ⟨by decide,
   c6_fail_fast false (some Band.K) (Txt.num 1)
     [⟨some (Txt.num 60), some true, some (Txt.num 1)⟩,
      ⟨some (Txt.num 5), some true, some Txt.bad⟩]
     [⟨some (Txt.num 60), some true, some (Txt.num 1)⟩] []
     ⟨some (Txt.num 5), some true, some Txt.bad⟩ Err.convertError
     (by decide)
     (by
       intro u hu
       rw [List.mem_singleton] at hu
       subst hu
       exact ⟨_, rfl⟩)
     rfl⟩

/-- C8: a vehicle row with a missing or empty speed, missing direction, or
missing or empty amplitude is silently dropped (removing it does not
change the run's outcome), and the run fails with `DATA ERROR` exactly
when no vehicle survives the filter. -/
theorem c8_filter_nodata (m : Bool) (band : Option Band) (dur : Txt)
    (bad : Vehicle) (vs : List Vehicle) (hbad : keep bad = false) :
    runAdvanced m band (bad :: vs) dur = runAdvanced m band vs dur ∧
    (runAdvanced m band vs dur = Except.error Err.dataError ↔
      vs.filter keep = []) := by
  constructor
  · simp [runAdvanced, List.filter_cons, hbad]
  · constructor
    · intro h
      by_contra hne
      obtain ⟨k, rest, hk⟩ := List.exists_cons_of_ne_nil hne
      unfold runAdvanced at h
      rw [hk] at h
      cases hsy : synthAll m band dur (k :: rest) with
      | error e2 =>
        simp only [hsy, Except.error.injEq] at h
        exact synthAll_error_ne_dataError hsy h
      | ok bufs =>
        cases bufs with
        | nil =>
          have hlen := synthAll_length hsy
          simp at hlen
        | cons bb bs => simp [hsy] at h
    · intro h
      unfold runAdvanced
      rw [h]
      rfl

/-- Witness for C8: one vehicle with an empty speed text is dropped and
the run on it alone reports `DATA ERROR`. -/
theorem c8_filter_nodata_witness :
    keep ⟨some Txt.empty, some true, some (Txt.num 1)⟩ = false ∧
    (runAdvanced false (some Band.K)
        [⟨some Txt.empty, some true, some (Txt.num 1)⟩] (Txt.num 1) =
      runAdvanced false (some Band.K) [] (Txt.num 1) ∧
    (runAdvanced false (some Band.K) [] (Txt.num 1) = Except.error Err.dataError ↔
      ([] : List Vehicle).filter keep = [])) :=
  ⟨by decide,
   c8_filter_nodata false (some Band.K) (Txt.num 1)
     ⟨some Txt.empty, some true, some (Txt.num 1)⟩ [] (by decide)⟩

lemma mkVehicles_direct :
    ∀ (ss : List Txt) (ds : List Bool) (ams : List Txt) (v : Vehicle),
      v ∈ mkVehicles ss ds ams → ∃ bb, v.direct = some bb := by
  intro ss
  induction ss with
  | nil =>
    intro ds ams v h
    cases ds <;> cases ams <;> simp [mkVehicles] at h
  | cons s ss2 ih =>
    intro ds ams v h
    cases ds with
    | nil => cases ams <;> simp [mkVehicles] at h
    | cons d ds2 =>
      cases ams with
      | nil => simp [mkVehicles] at h
      | cons a ams2 =>
        simp only [mkVehicles, List.mem_cons] at h
        rcases h with rfl | h
        · exact ⟨d, rfl⟩
        · exact ih ds2 ams2 v h

/-- C10: in the multi-vehicle path the direction of every assembled
vehicle row is a present boolean (the per-vehicle check button maps to
approaching when unchecked and receding when checked, never to an
unspecified direction), so the `DIR ERROR` branch of `create_sine` is
unreachable from the multi-vehicle run. -/
theorem c10_direction_unreachable (m : Bool) (band : Option Band)
    (speeds : List Txt) (checks : List Bool) (amps : List Txt) (dur : Txt) :
    (∀ v ∈ mkVehicles speeds (get_direction checks) amps,
      v.direct = some true ∨ v.direct = some false) ∧
    runAdvancedGui m band speeds checks amps dur ≠ Except.error Err.dirError := by
  constructor
  · intro v hv
    obtain ⟨bb, hbb⟩ := mkVehicles_direct _ _ _ v hv
    cases bb
    · exact Or.inr hbb
    · exact Or.inl hbb
  · unfold runAdvancedGui runAdvanced
    cases hsy : synthAll m band dur
        ((mkVehicles speeds (get_direction checks) amps).filter keep) with
    | error e2 =>
      have hne : e2 ≠ Err.dirError :=
        synthAll_keep_ne_dirError
          (fun v hv => (List.mem_filter.mp hv).2) hsy
      simp only [hsy, ne_eq, Except.error.injEq]
      exact hne
    | ok bufs =>
      cases bufs with
      | nil => simp [hsy]
      | cons bb bs => simp [hsy]

/-- Witness for C10 at a concrete one-vehicle GUI input. -/
theorem c10_direction_unreachable_witness :
    (∀ v ∈ mkVehicles [Txt.num 60] (get_direction [true]) [Txt.num 1],
      v.direct = some true ∨ v.direct = some false) ∧
    runAdvancedGui false (some Band.K) [Txt.num 60] [true] [Txt.num 1] (Txt.num 1) ≠
      Except.error Err.dirError :=
  c10_direction_unreachable false (some Band.K) [Txt.num 60] [true] [Txt.num 1]
    (Txt.num 1)
